import Mathlib

/-!
# Verification of the SmartSub subscription tracker's insight engine

Shallow embedding of `subscription_tracker.py`: the keyword categorizer
(`suggest_category`), the priority classifier (`get_priority`), the cost
normalizer (`normalize_cost`) and the insight generator (`generate_insights`).

Modelling conventions:
* Python strings are Lean `String`s; `str.lower` is modelled per character
  (ASCII case folding), and `\d` digits are modelled as ASCII digits.
* Python floats are modelled as `Rat`; `float(string)` is modelled by a
  parser for the plain decimal forms (optional sign, digits, optional
  fractional part) — exponent/`inf`/`nan` forms are folded into the failure
  case, which the insight engine never distinguishes.
* `datetime.now().date()` is an ambient input of `generate_insights`; it is
  passed explicitly as the `today` argument.
-/

namespace SmartSub

/-! ## Basic string utilities modelling Python primitives -/

/-- Per-character lower casing, modelling `str.lower()` on the ASCII range;
the result is kept as a character list, the form the substring tests use. -/
def pyLower (s : String) : List Char :=
  s.data.map Char.toLower

/-- `pySubstr k h` models the Python test `k in h` on character lists:
`k` occurs as a contiguous substring of `h` (the empty needle matches). -/
def pySubstr : List Char → List Char → Bool
  | k, [] => k.isEmpty
  | k, c :: rest => k.isPrefixOf (c :: rest) || pySubstr k rest

/-- `str.split(sep)` on character lists: splitting `"a-b"` at `'-'` gives
`[['a'], ['b']]`, and separators at the ends give empty pieces. -/
def splitChar (sep : Char) : List Char → List (List Char)
  | [] => [[]]
  | c :: rest =>
    let r := splitChar sep rest
    if c == sep then [] :: r
    else
      match r with
      | [] => [[c]]
      | h :: t => (c :: h) :: t

/-- Numeric value of a list of ASCII digits, most significant first. -/
def digitsVal (l : List Char) : Nat :=
  l.foldl (fun a c => a * 10 + (c.toNat - 48)) 0

/-- A piece of text that is a non-empty run of ASCII digits. -/
def allDigits (l : List Char) : Bool :=
  !l.isEmpty && l.all Char.isDigit

/-! ## Values, records and insights -/

/-- A Python value fed to `normalize_cost`: either already numeric or a raw
string that `float()` must parse. -/
inductive PyValue where
  | num (q : Rat)
  | str (s : String)
deriving DecidableEq, Repr

/-- Model of `float(x)`: numbers pass through; strings are stripped of
surrounding whitespace and parsed as an optionally signed decimal numeral
(`"12"`, `"12.5"`, `".5"`, `"12."`). Anything else fails (`none` stands for
the `ValueError` branch). -/
def pyFloat : PyValue → Option Rat
  | .num q => some q
  | .str s =>
    let l := ((s.data.dropWhile Char.isWhitespace).reverse.dropWhile
      Char.isWhitespace).reverse
    let (sign, body) : Rat × List Char :=
      match l with
      | '-' :: rest => (-1, rest)
      | '+' :: rest => (1, rest)
      | _ => (1, l)
    match splitChar '.' body with
    | [ds] => if allDigits ds then some (sign * (digitsVal ds : Rat)) else none
    | [ip, fp] =>
      if (!ip.isEmpty || !fp.isEmpty) && ip.all Char.isDigit
          && fp.all Char.isDigit then
        some (sign * ((digitsVal ip : Rat)
          + (digitsVal fp : Rat) / (10 ^ fp.length : Rat)))
      else none
    | _ => none

/-- A calendar date (no time component). -/
structure Date where
  year : Nat
  month : Nat
  day : Nat
deriving DecidableEq, Repr

/-- Gregorian leap-year rule, as in Python's `datetime`. -/
def isLeapYear (y : Nat) : Bool :=
  y % 4 == 0 && (y % 100 != 0 || y % 400 == 0)

/-- Length of month `m` of year `y` (months numbered 1–12). -/
def daysInMonth (y m : Nat) : Nat :=
  if m == 2 then (if isLeapYear y then 29 else 28)
  else if m == 4 || m == 6 || m == 9 || m == 11 then 30
  else 31

/-- Days in the years strictly before year `y` (proleptic Gregorian),
mirroring `datetime`'s `_days_before_year`. -/
def daysBeforeYear (y : Nat) : Nat :=
  365 * (y - 1) + (y - 1) / 4 - (y - 1) / 100 + (y - 1) / 400

/-- Days in the months of year `y` strictly before month `m`. -/
def daysBeforeMonth (y m : Nat) : Nat :=
  (List.range (m - 1)).foldl (fun a i => a + daysInMonth y (i + 1)) 0

/-- `date.toordinal()`: day count with 0001-01-01 ↦ 1. -/
def toOrdinal (d : Date) : Nat :=
  daysBeforeYear d.year + daysBeforeMonth d.year d.month + d.day

/-- Model of `datetime.strptime(s, "%Y-%m-%d").date()`: the string must be
exactly a 4-digit year, a 1–2 digit month in 1–12 and a 1–2 digit day,
separated by single hyphens, and the day must exist in that month of that
year (year 0000 is rejected, as `date` requires `year ≥ 1`). `none` stands
for the `ValueError` branch. -/
def parseDate (s : String) : Option Date :=
  match splitChar '-' s.data with
  | [ys, ms, ds] =>
    if allDigits ys && allDigits ms && allDigits ds then
      let y := digitsVal ys
      let m := digitsVal ms
      let d := digitsVal ds
      if ys.length == 4 && (ms.length == 1 || ms.length == 2)
          && 1 ≤ m && m ≤ 12
          && (ds.length == 1 || ds.length == 2) && 1 ≤ d && d ≤ 31
          && 1 ≤ y && d ≤ daysInMonth y m then
        some ⟨y, m, d⟩
      else none
    else none
  | _ => none

/-- One subscription record, one row of the tracked table. -/
structure Record where
  name : String
  cost : Rat
  cycle : String
  category : String
  renewalDate : String
deriving DecidableEq, Repr

/-- One generated alert: `{"type": …, "title": …, "msg": …}`. -/
structure Insight where
  type : String
  title : String
  msg : String
deriving DecidableEq, Repr

/-- Decimal rendering of a cost, modelling the `f"{cost}"` interpolation of a
Python float: whole numbers print with a trailing `.0`; other rationals are
printed as `Rat`s (the insight counts never depend on this text). -/
def costRepr (q : Rat) : String :=
  if q.den = 1 then toString q.num ++ ".0" else toString q

/-! ## The four core functions, translated from `subscription_tracker.py` -/

/-- The ordered keyword map of `suggest_category` — iteration order is the
Python dict's insertion order. -/
def keywords : List (String × List String) :=
  [("Entertainment",
      ["netflix", "hulu", "disney", "hbo", "prime", "cinema", "youtube",
       "tv"]),
   ("Music",
      ["spotify", "apple music", "tidal", "deezer", "pandora", "music",
       "sound"]),
   ("Productivity",
      ["notion", "evernote", "todoist", "linear", "jira", "slack", "zoom",
       "office", "microsoft"]),
   ("Utilities",
      ["internet", "electric", "water", "gas", "mobile", "phone", "verizon",
       "at&t", "t-mobile"]),
   ("Software",
      ["adobe", "figma", "github", "gitlab", "aws", "cloud", "hosting",
       "domain", "chatgpt", "openai"]),
   ("Fitness",
      ["gym", "fitness", "yoga", "peloton", "strava", "health",
       "myfitnesspal"]),
   ("Shopping",
      ["amazon", "walmart", "costco", "prime", "delivery", "uber"])]

/-- The `for category, keys in keywords.items()` loop: first category any of
whose keywords occurs in the (already lowered) name wins. -/
def findCategory (lowered : List Char) : List (String × List String) → String
  | [] => "Uncategorized"
  | (cat, keys) :: rest =>
    if keys.any (fun k => pySubstr k.data lowered) then cat
    else findCategory lowered rest

/-- `suggest_category(name)` from the source. -/
def suggest_category (name : String) : String :=
  findCategory (pyLower name) keywords

/-- The `essentials` list inside `get_priority`. -/
def essentials : List String :=
  ["Utilities", "Productivity", "Software", "Fitness"]

/-- `get_priority(category)` from the source. -/
def get_priority (category : String) : String :=
  if category ∈ essentials then "1st Priority" else "2nd Priority"

/-- `normalize_cost(cost, cycle)` from the source: the `try` block converts
`cost` with `float` and dispatches on the cycle; any failure (modelled by
`pyFloat` returning `none`) lands in the bare `except` returning `0.0`.
Note that a cycle other than `"Yearly"`/`"Quarterly"` reaches the trailing
`return cost`. -/
def normalize_cost (cost : PyValue) (cycle : String) : Rat :=
  match pyFloat cost with
  | none => 0
  | some c =>
    if cycle == "Yearly" then c / 12
    else if cycle == "Quarterly" then c / 3
    else c

/-! ## The insight generator -/

/-- Body of the renewal-alert loop for one row: parse the renewal date
(`except: continue` on failure), and emit a Critical insight when the renewal
falls within the next two days. -/
def renewalInsight (today : Date) (r : Record) : Option Insight :=
  match parseDate r.renewalDate with
  | none => none
  | some rd =>
    let daysUntil : Int := (toOrdinal rd : Int) - (toOrdinal today : Int)
    if 0 ≤ daysUntil ∧ daysUntil ≤ 2 then
      some { type := "Critical",
             title := "Renewal Alert: " ++ r.name,
             msg := "Renews in " ++ toString daysUntil
               ++ " day(s). Cost: ₹" ++ costRepr r.cost }
    else none

/-- Detector A: renewal alerts, in input iteration order. -/
def renewalAlerts (today : Date) (records : List Record) : List Insight :=
  records.filterMap (renewalInsight today)

/-- `lifestyle_subs.loc[lifestyle_subs['Cost'].idxmax()]`: scan keeping the
current best, replacing it only on a strictly greater cost, so the result is
the first row attaining the maximum. -/
def pickMax (best : Record) : List Record → Record
  | [] => best
  | r :: rs => pickMax (if best.cost < r.cost then r else best) rs

/-- The suggestion insight naming record `r`. -/
def suggestFor (r : Record) : Insight :=
  { type := "Suggestion",
    title := "Spending Strategy",
    msg := "Consider pausing '" ++ r.name ++ "' (₹" ++ costRepr r.cost
      ++ ") if you need to save money." }

/-- Detector B: among the rows whose category maps to `"2nd Priority"`, at
most one suggestion, naming the first maximal-cost row. -/
def pauseSuggestion (records : List Record) : List Insight :=
  match records.filter (fun r => get_priority r.category == "2nd Priority")
      with
  | [] => []
  | r :: rs => [suggestFor (pickMax r rs)]

/-- Worker for `dedupFirst`: keep the elements not yet `seen`, in order. -/
def dedupFirstAux (seen : List String) : List String → List String
  | [] => []
  | n :: ns =>
    if n ∈ seen then dedupFirstAux seen ns
    else n :: dedupFirstAux (n :: seen) ns

/-- `.unique()`: distinct elements in first-appearance order. -/
def dedupFirst (l : List String) : List String :=
  dedupFirstAux [] l

/-- The duplicate warning naming service `n`. -/
def warnFor (n : String) : Insight :=
  { type := "Warning",
    title := "Duplicate Found",
    msg := "You have multiple subscriptions for '" ++ n ++ "'." }

/-- Detector C: `df.duplicated(subset=['Name'], keep=False)` keeps the rows
whose name occurs at least twice; `.unique()` then walks the distinct names
in first-appearance order, one warning each. -/
def duplicateWarnings (records : List Record) : List Insight :=
  let names := records.map (fun r => r.name)
  (dedupFirst (names.filter (fun n => 1 < names.count n))).map warnFor

/-- `generate_insights(df)` from the source, with `datetime.now().date()`
passed explicitly as `today`: empty input short-circuits to `[]`, otherwise
the three detectors run in order A, B, C and their outputs concatenate. -/
def generate_insights (records : List Record) (today : Date) : List Insight :=
  if records.isEmpty then []
  else
    renewalAlerts today records ++ pauseSuggestion records
      ++ duplicateWarnings records

/-- The fixed category enumeration of the data model: every category
`suggest_category` can return, which is also the selectbox option list. -/
def categoryEnum : List String :=
  ["Entertainment", "Music", "Productivity", "Utilities", "Software",
   "Fitness", "Shopping", "Uncategorized"]

/-! ## General lemmas about the embedded functions -/

/-- The categorizer loop returns the first entry of the keyword map whose
keyword list matches, and `"Uncategorized"` when none does. -/
theorem findCategory_eq_find (lowered : List Char) :
    ∀ l : List (String × List String),
      findCategory lowered l =
        match l.find? (fun p => p.2.any (fun k => pySubstr k.data lowered))
          with
        | some p => p.1
        | none => "Uncategorized" := by
  intro l
  induction l with
  | nil => rfl
  | cons p rest ih =>
    obtain ⟨cat, keys⟩ := p
    by_cases h : (keys.any (fun k => pySubstr k.data lowered)) = true
    · simp [findCategory, List.find?_cons, h]
    · simp only [Bool.not_eq_true] at h
      simp [findCategory, List.find?_cons, h, ih]

/-! ## Claims about the cost normalizer -/

/-- C6: `normalize_cost` leaves a numeric monthly cost unchanged, divides a
quarterly cost by 3 and a yearly cost by 12; in particular
`normalize(120, Yearly) = 10`, `normalize(30, Quarterly) = 10`, and the
unparsable cost `"bad"` normalizes to `0`. -/
theorem normalize_cost_arithmetic :
    (∀ x : Rat,
      normalize_cost (.num x) "Monthly" = x
        ∧ normalize_cost (.num x) "Quarterly" = x / 3
        ∧ normalize_cost (.num x) "Yearly" = x / 12)
    ∧ normalize_cost (.num 120) "Yearly" = 10
    ∧ normalize_cost (.num 30) "Quarterly" = 10
    ∧ normalize_cost (.str "bad") "Monthly" = 0 := by
  refine ⟨fun x => ⟨?_, ?_, ?_⟩, ?_, ?_, by decide⟩ <;>
    simp [normalize_cost, pyFloat] <;> norm_num

/-- C1 counterexample: the cycle `"Weekly"` is not recognized, yet
`normalize_cost` returns the cost unchanged (`10`), not `0.0` — the
function only falls back to `0.0` when `float(cost)` fails, while an
unrecognized cycle reaches the trailing `return cost`. -/
theorem normalize_cost_unrecognized_cycle_counterexample :
    normalize_cost (.num 10) "Weekly" ≠ 0 := by decide

/-- C1 (amended): `normalize_cost` never fails; when the cost cannot be
interpreted as a number it returns `0.0`, and when the cost is numeric but
the cycle is not `"Yearly"` or `"Quarterly"` it returns the numeric cost
unchanged (the same branch `"Monthly"` takes), not `0.0`. -/
theorem normalize_cost_error_handling :
    ∀ (cost : PyValue) (cycle : String),
      (pyFloat cost = none → normalize_cost cost cycle = 0)
      ∧ (∀ c : Rat, pyFloat cost = some c → cycle ≠ "Yearly" →
          cycle ≠ "Quarterly" → normalize_cost cost cycle = c) := by
  intro cost cycle
  constructor
  · intro h
    simp [normalize_cost, h]
  · intro c hc h1 h2
    simp [normalize_cost, hc, h1, h2]

/-- C1 witness: `normalize_cost` on the unparsable cost `"oops"` gives `0`,
and on the numeric cost `7` with the unrecognized cycle `"Weekly"` gives `7`
back. -/
theorem normalize_cost_error_handling_witness :
    normalize_cost (.str "oops") "Monthly" = 0
      ∧ normalize_cost (.num 7) "Weekly" = 7 :=
  ⟨(normalize_cost_error_handling (.str "oops") "Monthly").1 (by decide),
   (normalize_cost_error_handling (.num 7) "Weekly").2 7 rfl (by decide)
     (by decide)⟩

/-! ## Claims about the priority classifier -/

/-- C10: over arbitrary strings, `get_priority` is total and returns
`"1st Priority"` exactly for the four strings `"Utilities"`,
`"Productivity"`, `"Software"`, `"Fitness"`, and `"2nd Priority"` for every
other string. -/
theorem get_priority_total :
    ∀ s : String,
      get_priority s =
        if s = "Utilities" ∨ s = "Productivity" ∨ s = "Software"
            ∨ s = "Fitness"
        then "1st Priority" else "2nd Priority" := by
  intro s
  simp [get_priority, essentials, List.mem_cons]

/-- C7: on every category of the fixed enumeration, `get_priority` returns
exactly one of the two tiers; `"Utilities"`, `"Productivity"`, `"Software"`
and `"Fitness"` map to `"1st Priority"` and every other category, including
`"Uncategorized"`, maps to `"2nd Priority"`. -/
theorem get_priority_two_tiers :
    ∀ c ∈ categoryEnum,
      (get_priority c = "1st Priority" ∨ get_priority c = "2nd Priority")
      ∧ (get_priority c = "1st Priority"
          ↔ (c = "Utilities" ∨ c = "Productivity" ∨ c = "Software"
              ∨ c = "Fitness")) := by
  decide

/-- C7 witness: instantiation at `"Utilities"` (first tier) of the two-tier
classification. -/
theorem get_priority_two_tiers_witness :
    (get_priority "Utilities" = "1st Priority"
        ∨ get_priority "Utilities" = "2nd Priority")
      ∧ (get_priority "Utilities" = "1st Priority"
          ↔ ("Utilities" = "Utilities" ∨ "Utilities" = "Productivity"
              ∨ "Utilities" = "Software" ∨ "Utilities" = "Fitness")) :=
  get_priority_two_tiers "Utilities" (by decide)

/-! ## Claims about the categorizer -/

/-- C3: `suggest_category` lower-cases the name and returns the first
category, in the fixed order Entertainment, Music, Productivity, Utilities,
Software, Fitness, Shopping, one of whose keywords occurs as a substring of
the lowered name, and `"Uncategorized"` when no keyword matches; in
particular `"Netflix"` is Entertainment, `"Amazon Prime"` is Entertainment
(not Shopping), and `"Random Startup Tool"` is Uncategorized. -/
theorem suggest_category_first_match :
    (keywords.map Prod.fst =
      ["Entertainment", "Music", "Productivity", "Utilities", "Software",
       "Fitness", "Shopping"])
    ∧ (∀ n : String,
        suggest_category n =
          match keywords.find?
              (fun p => p.2.any (fun k => pySubstr k.data (pyLower n)))
            with
          | some p => p.1
          | none => "Uncategorized")
    ∧ suggest_category "Netflix" = "Entertainment"
    ∧ suggest_category "Amazon Prime" = "Entertainment"
    ∧ suggest_category "Random Startup Tool" = "Uncategorized" := by
  refine ⟨by decide, fun n => ?_, by decide, by decide, by decide⟩
  exact findCategory_eq_find (pyLower n) keywords

/-! ## Structural lemmas about the insight generator -/

theorem renewalInsight_parsed {today : Date} {r : Record} {rd : Date}
    (h : parseDate r.renewalDate = some rd) :
    renewalInsight today r =
      if 0 ≤ (toOrdinal rd : Int) - (toOrdinal today : Int)
          ∧ (toOrdinal rd : Int) - (toOrdinal today : Int) ≤ 2
      then some ⟨"Critical", "Renewal Alert: " ++ r.name,
        "Renews in " ++ toString ((toOrdinal rd : Int) - (toOrdinal today : Int))
          ++ " day(s). Cost: ₹" ++ costRepr r.cost⟩
      else none := by
  simp only [renewalInsight, h]

theorem renewalInsight_unparsed {today : Date} {r : Record}
    (h : parseDate r.renewalDate = none) :
    renewalInsight today r = none := by
  simp only [renewalInsight, h]

theorem renewalInsight_type {today : Date} {r : Record} {i : Insight}
    (h : renewalInsight today r = some i) : i.type = "Critical" := by
  unfold renewalInsight at h
  split at h
  · exact Option.noConfusion h
  · dsimp only at h
    split at h
    · cases h
      rfl
    · exact Option.noConfusion h

theorem renewalAlerts_types {today : Date} {rs : List Record} {i : Insight}
    (h : i ∈ renewalAlerts today rs) : i.type = "Critical" := by
  obtain ⟨r, _, hr⟩ := List.mem_filterMap.mp h
  exact renewalInsight_type hr

theorem pauseSuggestion_types {rs : List Record} {i : Insight}
    (h : i ∈ pauseSuggestion rs) : i.type = "Suggestion" := by
  unfold pauseSuggestion at h
  split at h
  · exact absurd h (List.not_mem_nil i)
  · rw [List.mem_singleton.mp h]
    rfl

theorem duplicateWarnings_types {rs : List Record} {i : Insight}
    (h : i ∈ duplicateWarnings rs) : i.type = "Warning" := by
  simp only [duplicateWarnings, List.mem_map] at h
  obtain ⟨n, _, hn⟩ := h
  rw [← hn]
  rfl

theorem generate_insights_nonempty (records : List Record) (today : Date)
    (h : records ≠ []) :
    generate_insights records today =
      renewalAlerts today records ++ pauseSuggestion records
        ++ duplicateWarnings records := by
  unfold generate_insights
  rw [if_neg (by simpa [List.isEmpty_iff] using h)]

theorem filter_critical (records : List Record) (today : Date) :
    (generate_insights records today).filter (fun i => i.type == "Critical")
      = renewalAlerts today records := by
  rcases records with _ | ⟨r, rs⟩
  · rfl
  · rw [generate_insights_nonempty _ _ (by simp), List.filter_append,
      List.filter_append,
      List.filter_eq_self.mpr
        (fun a ha => by rw [renewalAlerts_types ha]; rfl),
      List.filter_eq_nil_iff.mpr
        (fun a ha => by rw [pauseSuggestion_types ha]; decide),
      List.filter_eq_nil_iff.mpr
        (fun a ha => by rw [duplicateWarnings_types ha]; decide)]
    simp

theorem filter_suggestion (records : List Record) (today : Date) :
    (generate_insights records today).filter (fun i => i.type == "Suggestion")
      = pauseSuggestion records := by
  rcases records with _ | ⟨r, rs⟩
  · rfl
  · rw [generate_insights_nonempty _ _ (by simp), List.filter_append,
      List.filter_append,
      List.filter_eq_nil_iff.mpr
        (fun a ha => by rw [renewalAlerts_types ha]; decide),
      List.filter_eq_self.mpr
        (fun a ha => by rw [pauseSuggestion_types ha]; rfl),
      List.filter_eq_nil_iff.mpr
        (fun a ha => by rw [duplicateWarnings_types ha]; decide)]
    simp

theorem filter_warning (records : List Record) (today : Date) :
    (generate_insights records today).filter (fun i => i.type == "Warning")
      = duplicateWarnings records := by
  rcases records with _ | ⟨r, rs⟩
  · rfl
  · rw [generate_insights_nonempty _ _ (by simp), List.filter_append,
      List.filter_append,
      List.filter_eq_nil_iff.mpr
        (fun a ha => by rw [renewalAlerts_types ha]; decide),
      List.filter_eq_nil_iff.mpr
        (fun a ha => by rw [pauseSuggestion_types ha]; decide),
      List.filter_eq_self.mpr
        (fun a ha => by rw [duplicateWarnings_types ha]; rfl)]
    simp

/-! ## Claims about the renewal-alert detector -/

/-- C2: a record whose renewal date parses contributes exactly one Critical
insight to `generate_insights`, exactly when the whole-day difference
`renewal − today` lies in `[0, 2]`, independently of the surrounding
records; a record whose renewal date fails to parse contributes nothing and
raises nothing. -/
theorem generate_insights_renewal_alerts :
    ∀ (today : Date) (l1 l2 : List Record) (r : Record),
      (∀ rd, parseDate r.renewalDate = some rd →
        (generate_insights (l1 ++ r :: l2) today).filter
            (fun i => i.type == "Critical") =
          renewalAlerts today l1
            ++ (if 0 ≤ (toOrdinal rd : Int) - (toOrdinal today : Int)
                  ∧ (toOrdinal rd : Int) - (toOrdinal today : Int) ≤ 2
                then [⟨"Critical", "Renewal Alert: " ++ r.name,
                  "Renews in "
                    ++ toString ((toOrdinal rd : Int) - (toOrdinal today : Int))
                    ++ " day(s). Cost: ₹" ++ costRepr r.cost⟩]
                else [])
            ++ renewalAlerts today l2)
      ∧ (parseDate r.renewalDate = none →
          (generate_insights (l1 ++ r :: l2) today).filter
              (fun i => i.type == "Critical") =
            renewalAlerts today l1 ++ renewalAlerts today l2) := by
  intro today l1 l2 r
  constructor
  · intro rd hrd
    rw [filter_critical, renewalAlerts, List.filterMap_append,
      List.filterMap_cons, renewalInsight_parsed hrd]
    by_cases hc : 0 ≤ (toOrdinal rd : Int) - (toOrdinal today : Int)
        ∧ (toOrdinal rd : Int) - (toOrdinal today : Int) ≤ 2
    · rw [if_pos hc, if_pos hc]
      simp [renewalAlerts]
    · rw [if_neg hc, if_neg hc]
      simp [renewalAlerts]
  · intro hrd
    rw [filter_critical, renewalAlerts, List.filterMap_append,
      List.filterMap_cons, renewalInsight_unparsed hrd]
    simp [renewalAlerts]

/-- C2 witness: with `today = 2024-01-10`, a record renewing on
`2024-01-12` (two days out) yields exactly one Critical insight. -/
theorem generate_insights_renewal_alerts_witness :
    (generate_insights
        [⟨"Svc", 10, "Monthly", "Uncategorized", "2024-01-12"⟩]
        ⟨2024, 1, 10⟩).filter (fun i => i.type == "Critical")
      = [⟨"Critical", "Renewal Alert: Svc",
          "Renews in 2 day(s). Cost: ₹10.0"⟩] := by
  have h := (generate_insights_renewal_alerts ⟨2024, 1, 10⟩ [] []
    ⟨"Svc", 10, "Monthly", "Uncategorized", "2024-01-12"⟩).1
    ⟨2024, 1, 12⟩ (by decide)
  simp only [List.nil_append] at h
  rw [h]
  decide

/-! ## Claims about error isolation and the empty collection -/

/-- C8: `generate_insights` on the empty collection is the empty list, and a
record whose renewal date fails to parse is excluded from the renewal
detector's output only — the suggestion and duplicate detectors still run
on the full collection, and nothing raises. -/
theorem generate_insights_error_isolation :
    (∀ today : Date, generate_insights [] today = [])
    ∧ (∀ (today : Date) (l1 l2 : List Record) (r : Record),
        parseDate r.renewalDate = none →
        generate_insights (l1 ++ r :: l2) today =
          renewalAlerts today (l1 ++ l2) ++ pauseSuggestion (l1 ++ r :: l2)
            ++ duplicateWarnings (l1 ++ r :: l2)) := by
  constructor
  · intro today
    rfl
  · intro today l1 l2 r h
    rw [generate_insights_nonempty _ _ (by simp), renewalAlerts,
      renewalAlerts, List.filterMap_append, List.filterMap_append,
      List.filterMap_cons, renewalInsight_unparsed h]

/-- C8 witness: the empty collection yields `[]`, and a record with the
unparsable date `"not-a-date"` drops out of the renewal alerts while both
other detectors still see the whole collection. -/
theorem generate_insights_error_isolation_witness :
    generate_insights [] ⟨2024, 1, 10⟩ = []
    ∧ generate_insights
        [⟨"Good", 5, "Monthly", "Uncategorized", "2024-01-11"⟩,
         ⟨"Bad", 7, "Monthly", "Uncategorized", "not-a-date"⟩]
        ⟨2024, 1, 10⟩
      = renewalAlerts ⟨2024, 1, 10⟩
          [⟨"Good", 5, "Monthly", "Uncategorized", "2024-01-11"⟩]
        ++ pauseSuggestion
            [⟨"Good", 5, "Monthly", "Uncategorized", "2024-01-11"⟩,
             ⟨"Bad", 7, "Monthly", "Uncategorized", "not-a-date"⟩]
        ++ duplicateWarnings
            [⟨"Good", 5, "Monthly", "Uncategorized", "2024-01-11"⟩,
             ⟨"Bad", 7, "Monthly", "Uncategorized", "not-a-date"⟩] := by
  refine ⟨generate_insights_error_isolation.1 ⟨2024, 1, 10⟩, ?_⟩
  have h := generate_insights_error_isolation.2 ⟨2024, 1, 10⟩
    [⟨"Good", 5, "Monthly", "Uncategorized", "2024-01-11"⟩] []
    ⟨"Bad", 7, "Monthly", "Uncategorized", "not-a-date"⟩ (by decide)
  simpa using h

/-! ## Lemmas about the maximum-cost scan -/

theorem pickMax_mem (best : Record) (rs : List Record) :
    pickMax best rs ∈ best :: rs := by
  induction rs generalizing best with
  | nil => simp [pickMax]
  | cons r rs ih =>
    rw [pickMax]
    by_cases h : best.cost < r.cost
    · rw [if_pos h]
      exact List.mem_cons_of_mem best (ih r)
    · rw [if_neg h]
      rcases List.mem_cons.mp (ih best) with h1 | h1
      · exact List.mem_cons.mpr (Or.inl h1)
      · exact List.mem_cons_of_mem _ (List.mem_cons_of_mem _ h1)

theorem pickMax_le (best : Record) (rs : List Record) :
    ∀ x ∈ best :: rs, x.cost ≤ (pickMax best rs).cost := by
  induction rs generalizing best with
  | nil =>
    intro x hx
    rw [List.mem_singleton.mp hx]
    simp [pickMax]
  | cons r rs ih =>
    intro x hx
    rw [pickMax]
    by_cases h : best.cost < r.cost
    · rw [if_pos h]
      rcases List.mem_cons.mp hx with h1 | h1
      · calc x.cost = best.cost := by rw [h1]
          _ ≤ r.cost := le_of_lt h
          _ ≤ (pickMax r rs).cost := ih r r (List.mem_cons_self r rs)
      · exact ih r x h1
    · rw [if_neg h]
      rcases List.mem_cons.mp hx with h1 | h1
      · exact h1 ▸ ih best best (List.mem_cons_self best rs)
      · rcases List.mem_cons.mp h1 with h2 | h2
        · calc x.cost = r.cost := by rw [h2]
            _ ≤ best.cost := le_of_not_lt h
            _ ≤ (pickMax best rs).cost := ih best best (List.mem_cons_self best rs)
        · exact ih best x (List.mem_cons_of_mem best h2)

theorem pickMax_first (best : Record) (rs : List Record) :
    ∃ l1 l2, best :: rs = l1 ++ pickMax best rs :: l2
      ∧ ∀ x ∈ l1, x.cost < (pickMax best rs).cost := by
  induction rs generalizing best with
  | nil => exact ⟨[], [], by simp [pickMax], by simp⟩
  | cons r rs ih =>
    rw [pickMax]
    by_cases h : best.cost < r.cost
    · rw [if_pos h]
      obtain ⟨l1, l2, heq, hlt⟩ := ih r
      refine ⟨best :: l1, l2, by rw [List.cons_append, ← heq], ?_⟩
      intro x hx
      rcases List.mem_cons.mp hx with h1 | h1
      · calc x.cost = best.cost := by rw [h1]
          _ < r.cost := h
          _ ≤ (pickMax r rs).cost := pickMax_le r rs r (List.mem_cons_self r rs)
      · exact hlt x h1
    · rw [if_neg h]
      obtain ⟨l1, l2, heq, hlt⟩ := ih best
      rcases l1 with _ | ⟨a, l1'⟩
      · rw [List.nil_append] at heq
        injection heq with h1 h2
        refine ⟨[], r :: l2, ?_, by simp⟩
        rw [List.nil_append, ← h1, ← h2]
      · rw [List.cons_append] at heq
        injection heq with h1 h2
        refine ⟨a :: r :: l1', l2, ?_, ?_⟩
        · conv_lhs => rw [h2]
          rw [← h1, List.cons_append, List.cons_append]
        · intro x hx
          rcases List.mem_cons.mp hx with hx1 | hx1
          · exact hx1 ▸ hlt a (List.mem_cons_self a l1')
          · rcases List.mem_cons.mp hx1 with hx2 | hx2
            · calc x.cost = r.cost := by rw [hx2]
                _ ≤ best.cost := le_of_not_lt h
                _ = a.cost := by rw [h1]
                _ < (pickMax best rs).cost := hlt a (List.mem_cons_self a l1')
            · exact hlt x (List.mem_cons_of_mem a hx2)

/-! ## Claims about the spend-reduction suggestion -/

/-- C4: `generate_insights` emits at most one Suggestion insight; when the
discretionary subset (priority `"2nd Priority"`) is empty it emits none, and
when it is non-empty it emits exactly one, naming a discretionary record of
maximum non-normalized cost. -/
theorem generate_insights_pause_suggestion :
    ∀ (records : List Record) (today : Date),
      ((generate_insights records today).filter
          (fun i => i.type == "Suggestion")).length ≤ 1
      ∧ (records.filter (fun r => get_priority r.category == "2nd Priority")
            = [] →
          (generate_insights records today).filter
            (fun i => i.type == "Suggestion") = [])
      ∧ (∀ (d : Record) (ds : List Record),
          records.filter (fun r => get_priority r.category == "2nd Priority")
              = d :: ds →
          ∃ m, m ∈ d :: ds ∧ (∀ x ∈ d :: ds, x.cost ≤ m.cost)
            ∧ (generate_insights records today).filter
                (fun i => i.type == "Suggestion") = [suggestFor m]) := by
  intro records today
  refine ⟨?_, ?_, ?_⟩
  · rw [filter_suggestion]
    unfold pauseSuggestion
    split
    · simp
    · simp
  · intro h
    rw [filter_suggestion]
    simp only [pauseSuggestion, h]
  · intro d ds h
    rw [filter_suggestion]
    simp only [pauseSuggestion, h]
    exact ⟨pickMax d ds, pickMax_mem d ds, pickMax_le d ds, rfl⟩

/-- C4 witness: among discretionary records of costs 5, 40 and 12, exactly
one suggestion is emitted and it names a maximal-cost record. -/
theorem generate_insights_pause_suggestion_witness :
    ∃ m, m ∈ [(⟨"A", 5, "Monthly", "Entertainment", "x"⟩ : Record),
              ⟨"B", 40, "Monthly", "Entertainment", "x"⟩,
              ⟨"C", 12, "Monthly", "Entertainment", "x"⟩]
      ∧ (∀ x ∈ [(⟨"A", 5, "Monthly", "Entertainment", "x"⟩ : Record),
              ⟨"B", 40, "Monthly", "Entertainment", "x"⟩,
              ⟨"C", 12, "Monthly", "Entertainment", "x"⟩], x.cost ≤ m.cost)
      ∧ (generate_insights
            [⟨"A", 5, "Monthly", "Entertainment", "x"⟩,
             ⟨"B", 40, "Monthly", "Entertainment", "x"⟩,
             ⟨"C", 12, "Monthly", "Entertainment", "x"⟩] ⟨2024, 1, 10⟩).filter
          (fun i => i.type == "Suggestion") = [suggestFor m] :=
  (generate_insights_pause_suggestion
    [⟨"A", 5, "Monthly", "Entertainment", "x"⟩,
     ⟨"B", 40, "Monthly", "Entertainment", "x"⟩,
     ⟨"C", 12, "Monthly", "Entertainment", "x"⟩] ⟨2024, 1, 10⟩).2.2
    ⟨"A", 5, "Monthly", "Entertainment", "x"⟩
    [⟨"B", 40, "Monthly", "Entertainment", "x"⟩,
     ⟨"C", 12, "Monthly", "Entertainment", "x"⟩] (by decide)

/-- C9: when the discretionary subset is non-empty, the record the single
suggestion names is the first one (in input order) attaining the maximum
cost: every earlier discretionary record costs strictly less. -/
theorem generate_insights_suggestion_tie_break :
    ∀ (records : List Record) (today : Date) (d : Record) (ds : List Record),
      records.filter (fun r => get_priority r.category == "2nd Priority")
          = d :: ds →
      ∃ l1 l2, d :: ds = l1 ++ pickMax d ds :: l2
        ∧ (∀ x ∈ l1, x.cost < (pickMax d ds).cost)
        ∧ (generate_insights records today).filter
            (fun i => i.type == "Suggestion") = [suggestFor (pickMax d ds)] := by
  intro records today d ds h
  obtain ⟨l1, l2, heq, hlt⟩ := pickMax_first d ds
  refine ⟨l1, l2, heq, hlt, ?_⟩
  rw [filter_suggestion]
  simp only [pauseSuggestion, h]

/-- C9 witness: with discretionary costs 5, 40, 40, the scan picks the
earlier of the two records tied at 40, and the suggestion names it. -/
theorem generate_insights_suggestion_tie_break_witness :
    pickMax (⟨"A", 5, "Monthly", "Entertainment", "x"⟩ : Record)
        [⟨"B", 40, "Monthly", "Entertainment", "x"⟩,
         ⟨"C", 40, "Monthly", "Entertainment", "x"⟩]
      = ⟨"B", 40, "Monthly", "Entertainment", "x"⟩
    ∧ ∃ l1 l2,
        [(⟨"A", 5, "Monthly", "Entertainment", "x"⟩ : Record),
         ⟨"B", 40, "Monthly", "Entertainment", "x"⟩,
         ⟨"C", 40, "Monthly", "Entertainment", "x"⟩]
          = l1 ++ pickMax (⟨"A", 5, "Monthly", "Entertainment", "x"⟩ : Record)
              [⟨"B", 40, "Monthly", "Entertainment", "x"⟩,
               ⟨"C", 40, "Monthly", "Entertainment", "x"⟩] :: l2
        ∧ (∀ x ∈ l1, x.cost
            < (pickMax (⟨"A", 5, "Monthly", "Entertainment", "x"⟩ : Record)
                [⟨"B", 40, "Monthly", "Entertainment", "x"⟩,
                 ⟨"C", 40, "Monthly", "Entertainment", "x"⟩]).cost)
        ∧ (generate_insights
              [⟨"A", 5, "Monthly", "Entertainment", "x"⟩,
               ⟨"B", 40, "Monthly", "Entertainment", "x"⟩,
               ⟨"C", 40, "Monthly", "Entertainment", "x"⟩]
              ⟨2024, 1, 10⟩).filter (fun i => i.type == "Suggestion")
            = [suggestFor
                (pickMax (⟨"A", 5, "Monthly", "Entertainment", "x"⟩ : Record)
                  [⟨"B", 40, "Monthly", "Entertainment", "x"⟩,
                   ⟨"C", 40, "Monthly", "Entertainment", "x"⟩])] :=
  ⟨by decide,
   generate_insights_suggestion_tie_break
     [⟨"A", 5, "Monthly", "Entertainment", "x"⟩,
      ⟨"B", 40, "Monthly", "Entertainment", "x"⟩,
      ⟨"C", 40, "Monthly", "Entertainment", "x"⟩] ⟨2024, 1, 10⟩
     ⟨"A", 5, "Monthly", "Entertainment", "x"⟩
     [⟨"B", 40, "Monthly", "Entertainment", "x"⟩,
      ⟨"C", 40, "Monthly", "Entertainment", "x"⟩] (by decide)⟩

/-! ## Lemmas about first-appearance deduplication -/

theorem mem_dedupFirstAux (l : List String) :
    ∀ (seen : List String) (x : String),
      x ∈ dedupFirstAux seen l ↔ x ∈ l ∧ x ∉ seen := by
  induction l with
  | nil =>
    intro seen x
    simp [dedupFirstAux]
  | cons n ns ih =>
    intro seen x
    rw [dedupFirstAux]
    by_cases h : n ∈ seen
    · rw [if_pos h, ih]
      constructor
      · rintro ⟨h1, h2⟩
        exact ⟨List.mem_cons_of_mem n h1, h2⟩
      · rintro ⟨h1, h2⟩
        rcases List.mem_cons.mp h1 with rfl | h1
        · exact absurd h h2
        · exact ⟨h1, h2⟩
    · rw [if_neg h]
      constructor
      · intro hx
        rcases List.mem_cons.mp hx with rfl | hx
        · exact ⟨List.mem_cons_self x ns, h⟩
        · obtain ⟨h1, h2⟩ := (ih _ _).mp hx
          exact ⟨List.mem_cons_of_mem n h1,
            fun hc => h2 (List.mem_cons_of_mem n hc)⟩
      · rintro ⟨h1, h2⟩
        rcases List.mem_cons.mp h1 with rfl | h1
        · exact List.mem_cons_self x _
        · by_cases hxn : x = n
          · subst hxn
            exact List.mem_cons_self x _
          · refine List.mem_cons_of_mem n ((ih _ _).mpr ⟨h1, ?_⟩)
            intro hc
            rcases List.mem_cons.mp hc with h3 | h3
            · exact hxn h3
            · exact h2 h3

theorem nodup_dedupFirstAux (l : List String) :
    ∀ seen : List String, (dedupFirstAux seen l).Nodup := by
  induction l with
  | nil =>
    intro seen
    simp [dedupFirstAux]
  | cons n ns ih =>
    intro seen
    rw [dedupFirstAux]
    by_cases h : n ∈ seen
    · rw [if_pos h]
      exact ih seen
    · rw [if_neg h]
      refine List.nodup_cons.mpr ⟨?_, ih (n :: seen)⟩
      intro hc
      exact ((mem_dedupFirstAux ns _ n).mp hc).2 (List.mem_cons_self n seen)

theorem dedupFirstAux_filter (p : String → Bool) (l : List String) :
    ∀ seen seen' : List String,
      (∀ x, p x = true → (x ∈ seen ↔ x ∈ seen')) →
      dedupFirstAux seen (l.filter p) = (dedupFirstAux seen' l).filter p := by
  induction l with
  | nil =>
    intro seen seen' _
    rfl
  | cons n ns ih =>
    intro seen seen' hinv
    by_cases hp : p n = true
    · rw [List.filter_cons_of_pos hp, dedupFirstAux, dedupFirstAux]
      by_cases h : n ∈ seen'
      · rw [if_pos ((hinv n hp).mpr h), if_pos h]
        exact ih seen seen' hinv
      · rw [if_neg (fun hc => h ((hinv n hp).mp hc)), if_neg h,
          List.filter_cons_of_pos hp,
          ih (n :: seen) (n :: seen')
            (fun x hx => by simp [List.mem_cons, hinv x hx])]
    · rw [List.filter_cons_of_neg (by simp [hp]), dedupFirstAux]
      by_cases h : n ∈ seen'
      · rw [if_pos h]
        exact ih seen seen' hinv
      · rw [if_neg h, List.filter_cons_of_neg (by simp [hp])]
        refine ih seen (n :: seen') (fun x hx => ?_)
        have hxn : x ≠ n := fun he => hp (he ▸ hx)
        simp [List.mem_cons, hxn, hinv x hx]

theorem dedupFirst_filter (p : String → Bool) (l : List String) :
    dedupFirst (l.filter p) = (dedupFirst l).filter p :=
  dedupFirstAux_filter p l [] [] (fun _ _ => Iff.rfl)

/-! ## Claims about the duplicate detector -/

/-- C5: the Warning insights of `generate_insights` are exactly one per
distinct name that occurs more than once in the collection (names compared
by exact, case-sensitive equality), listed in first-appearance order; the
records named A, B, A, A yield exactly one Warning, for "A". -/
theorem generate_insights_duplicates :
    ∀ (records : List Record) (today : Date),
      ((generate_insights records today).filter (fun i => i.type == "Warning")
          = ((dedupFirst (records.map (fun r => r.name))).filter
              (fun n => 1 < (records.map (fun r => r.name)).count n)).map
              warnFor)
      ∧ (∀ n : String,
          n ∈ (dedupFirst (records.map (fun r => r.name))).filter
              (fun n => 1 < (records.map (fun r => r.name)).count n)
            ↔ 1 < (records.map (fun r => r.name)).count n)
      ∧ ((dedupFirst (records.map (fun r => r.name))).filter
          (fun n => 1 < (records.map (fun r => r.name)).count n)).Nodup
      ∧ (generate_insights
            [⟨"A", 1, "Monthly", "Entertainment", "x"⟩,
             ⟨"B", 1, "Monthly", "Entertainment", "x"⟩,
             ⟨"A", 1, "Monthly", "Entertainment", "x"⟩,
             ⟨"A", 1, "Monthly", "Entertainment", "x"⟩] ⟨2024, 1, 1⟩).filter
          (fun i => i.type == "Warning") = [warnFor "A"] := by
  intro records today
  refine ⟨?_, ?_, ?_, by decide⟩
  · rw [filter_warning]
    simp only [duplicateWarnings]
    rw [← dedupFirst_filter]
  · intro n
    rw [List.mem_filter]
    constructor
    · rintro ⟨_, h2⟩
      simpa using h2
    · intro h
      refine ⟨?_, by simpa using h⟩
      have hn : n ∈ records.map (fun r => r.name) :=
        List.count_pos_iff.mp (Nat.lt_of_lt_of_le Nat.zero_lt_one (le_of_lt h))
      exact (mem_dedupFirstAux _ _ _).mpr ⟨hn, List.not_mem_nil n⟩
  · exact List.Nodup.filter _ (nodup_dedupFirstAux _ [])

end SmartSub
